import Mathlib

/-!
Verification development for the text shaping and glyph-rendering cache engine
of `text/v2/gotextfacesource.go` (package `text`).

The Go source is shallowly embedded below.  Pure helpers become Lean
functions; the mutable caches of a `GoTextFaceSource` become explicit state
passing; Go panics become `Option.none`; Go `float64` values are modelled by
`Float64` (an exact value plus the two representation distinctions that are
observable through Go's `==`: the negative zero and NaN); fixed-point
`fixed.Int26_6` values are modelled as `Int` (the raw 26.6 payload) and
coordinate arithmetic is carried out exactly in `ℚ`.

External collaborators (the go-text segmenter and HarfBuzz shaper, the
parsed font's glyph tables, the baseline adjuster, the sideways transform)
are modelled as components of an explicit environment record, exactly as the
specification treats them: opaque capabilities the engine invokes.
-/

/-- Model of a Go `float64` value as observable through Go's `==` operator:
a finite value is identified by its exact rational value (every finite
`float64` other than `-0.0` has a unique bit representation), `-0.0` is kept
apart from `finite 0` because the two have distinct representations (and
distinct decimal serializations), and all NaN payloads are collapsed into a
single `nan` constructor because Go's `==` never equates any of them with
anything. -/
inductive Float64 where
  | finite (q : ℚ)
  | negZero
  | nan
  deriving DecidableEq

/-- Go's `==` (IEEE-754 equality) on `float64`: `0.0 == -0.0` is `true` and
`NaN == x` is `false` for every `x`, including `x = NaN`. -/
def Float64.beq : Float64 → Float64 → Bool
  | .finite a, .finite b => decide (a = b)
  | .finite a, .negZero => decide (a = 0)
  | .negZero, .finite b => decide (b = 0)
  | .negZero, .negZero => true
  | .nan, _ => false
  | _, .nan => false

/-- A strictly positive finite `float64`, the range the spec admits for a
face size (`style.size > 0`). -/
def Float64.isPosFinite : Float64 → Bool
  | .finite q => decide (0 < q)
  | _ => false

/-- The exact rational value of a `fixed.Int26_6` fixed-point number
(`fixed26_6ToFloat64` / `fixed26_6ToFloat32` in the Go sources divide the raw
payload by 64; both conversions are exact for the values reaching them). -/
def fixed26_6ToRat (f : Int) : ℚ := (f : ℚ) / 64

/-- Modelled from the spec: the package's `float64ToFixed26_6` conversion
(declared outside `src`): multiply by 64 and truncate to the fixed-point
grid.  `-0.0` converts to `0`; the result for NaN is arbitrary (Go leaves
float-to-int conversion of NaN unspecified) and no claim depends on it. -/
def float64ToFixed26_6 : Float64 → Int
  | .finite q => ⌊q * 64⌋
  | .negZero => 0
  | .nan => 0

/-- Modelled from the spec: the writing directions of the `text` package's
`Direction` type (declared outside `src`): left-to-right, right-to-left and
top-to-bottom.  `shapeImpl` only ever compares a direction against
`DirectionRightToLeft`. -/
inductive Direction where
  | leftToRight
  | rightToLeft
  | topToBottom
  deriving DecidableEq

/-- The direction carried by a shaping output (go-text's `di.Direction`),
modelled only up to the one predicate `shapeImpl` consults: whether the
output direction is sideways (vertical text with rotated glyphs). -/
inductive ODirection where
  | horizontal
  | sideways
  | upright
  deriving DecidableEq

/-- Whether an output direction is sideways (`di.Direction.IsSideways`). -/
def ODirection.isSideways : ODirection → Bool
  | .sideways => true
  | _ => false

/-- One outline point, in exact coordinates (`opentype.SegmentPoint`). -/
structure Point where
  x : ℚ
  y : ℚ
  deriving DecidableEq

/-- One outline path segment (`opentype.Segment`): an opcode and its
argument points (`Args` is a fixed three-point array in Go; it is modelled
as the list of those points). -/
structure Segment where
  op : Nat
  args : List Point
  deriving DecidableEq

/-- An axis-aligned rectangle standing in for `fixed.Rectangle26_6`, with
exact coordinates. -/
structure Rect where
  minX : ℚ
  minY : ℚ
  maxX : ℚ
  maxY : ℚ
  deriving DecidableEq

/-- Modelled from the spec: `segmentsToBounds` (declared outside `src`)
computes the axis-aligned bounding box of the scaled segments; a glyph with
zero segments has a degenerate (empty) box. -/
def segmentsToBounds (segs : List Segment) : Rect :=
  let pts := (segs.map Segment.args).flatten
  match pts with
  | [] => ⟨0, 0, 0, 0⟩
  | p :: rest =>
      rest.foldl
        (fun r q => ⟨min r.minX q.x, min r.minY q.y, max r.maxX q.x, max r.maxY q.y⟩)
        ⟨p.x, p.y, p.x, p.y⟩

/-- One positioned glyph reported by the shaper (`shaping.Glyph`), with the
fields `shapeImpl` reads: glyph id, cluster index and rune count (both in
runes of the shaped input), and the fixed-point offsets. -/
structure ShapingGlyph where
  glyphID : Nat
  clusterIndex : Nat
  runeCount : Nat
  xOffset : Int
  yOffset : Int
  deriving DecidableEq

/-- The shaping input record built by `shapeImpl` (`shaping.Input`); the
`Face` field is implicit in the environment (a single font resolves every
run). -/
structure ShapingInput where
  text : List Nat
  runStart : Nat
  runEnd : Nat
  direction : Direction
  fontFeatures : List (Nat × Nat)
  size : Int
  script : String
  language : String
  deriving DecidableEq

/-- A shaping output (`shaping.Output`), with the fields `shapeImpl` reads:
the positioned glyphs, the shaped size (fixed-point) and the resolved output
direction. -/
structure ShapingOutput where
  glyphs : List ShapingGlyph
  size : Int
  direction : ODirection
  deriving DecidableEq

/-- The glyph data returned by the font for a glyph id (`font.GlyphData`):
a filled outline, an SVG-table outline, a bitmap with an optional vector
outline, or nothing at all (the `switch` in `shapeImpl` falls through with
no segments in that last case). -/
inductive GlyphData where
  | outline (segments : List Segment)
  | svg (segments : List Segment)
  | bitmap (outline : Option (List Segment))
  | missing
  deriving DecidableEq

/-- Modelled from the spec: the font metadata computed once at construction
by `metadataFromFace` (declared outside `src`). -/
structure Metadata where
  family : String
  deriving DecidableEq

/-- The shaping cache key (`goTextOutputCacheKey`, lines 31-39 of the
source): the text plus every style field.  `size` is the raw `float64`
exactly as in the source; `variations` and `features` are stored in the
source as canonicalized strings — they are modelled here as the canonical
sorted pair lists themselves, whose equality coincides with equality of any
injective serialization of them (the spec's "sorted-and-joined strings"). -/
structure goTextOutputCacheKey where
  text : List Nat
  direction : Direction
  size : Float64
  language : String
  script : String
  variations : List (Nat × Float64)
  features : List (Nat × Nat)
  deriving DecidableEq

/-- One cached glyph record (`glyph`, lines 41-47 of the source). -/
structure glyph where
  shapingGlyph : ShapingGlyph
  startIndex : Nat
  endIndex : Nat
  scaledSegments : List Segment
  bounds : Rect
  deriving DecidableEq

/-- The shaping cache value (`goTextOutputCacheValue`, lines 49-52). -/
structure goTextOutputCacheValue where
  outputs : List ShapingOutput
  glyphs : List glyph
  deriving DecidableEq

/-- The glyph-image cache key (`goTextGlyphImageCacheKey`, lines 54-59);
`variations` is the same canonical pair list as in the shaping key. -/
structure goTextGlyphImageCacheKey where
  gid : Nat
  xoffset : Int
  yoffset : Int
  variations : List (Nat × Float64)
  deriving DecidableEq

/-- Go's `==` on `goTextOutputCacheKey` values, the equality a Go map with
this key type uses: every field compares by `==`, which is structural for
the strings, the direction and the canonicalized variation/feature strings,
and is IEEE-754 equality for the raw `float64` size field. -/
def goTextOutputCacheKeyBeq (a b : goTextOutputCacheKey) : Bool :=
  decide (a.text = b.text) && decide (a.direction = b.direction) &&
    Float64.beq a.size b.size && decide (a.language = b.language) &&
    decide (a.script = b.script) && decide (a.variations = b.variations) &&
    decide (a.features = b.features)

/-- Go's `==` on glyph-image cache keys: all fields structural. -/
def goTextGlyphImageCacheKeyBeq (a b : goTextGlyphImageCacheKey) : Bool :=
  decide (a = b)

/-- Modelled from the spec: the generic keyed cache of `cache.go` (declared
outside `src`): a bounded mapping with at-most-once computation per key and
least-recently-used eviction.  Entries are kept most-recently-used first. -/
structure Cache (K V : Type) where
  capacity : Nat
  entries : List (K × V)
  deriving DecidableEq

/-- A fresh empty cache of the given capacity (`newCache`). -/
def Cache.empty (K V : Type) (capacity : Nat) : Cache K V :=
  ⟨capacity, []⟩

/-- Looks for the first entry whose key matches under `beq` and returns it
together with the remaining entries (in order), or `none`. -/
def extractEntry {K V : Type} (beq : K → K → Bool) (k : K) :
    List (K × V) → Option ((K × V) × List (K × V))
  | [] => none
  | e :: rest =>
    if beq k e.1 then some (e, rest)
    else
      match extractEntry beq k rest with
      | some (f, rest2) => some (f, e :: rest2)
      | none => none

/-- Modelled from the spec: `cache.getOrCreate`.  On a hit the stored value
is returned, the entry is moved to the front (most recently used) and the
computation is not invoked; on a miss the computation runs, a cacheable
result is inserted at the front with the least-recently-used tail evicted
down to capacity, and a non-cacheable result is returned without being
retained.  The returned flag records whether the computation was invoked;
`none` from the computation is a propagated panic. -/
def Cache.getOrCreate {K V : Type} (c : Cache K V) (beq : K → K → Bool) (k : K)
    (compute : Unit → Option (V × Bool)) : Option (V × Cache K V × Bool) :=
  match extractEntry beq k c.entries with
  | some (e, rest) => some (e.2, ⟨c.capacity, e :: rest⟩, false)
  | none =>
    match compute () with
    | none => none
    | some (v, cacheable) =>
      if cacheable then some (v, ⟨c.capacity, ((k, v) :: c.entries).take c.capacity⟩, true)
      else some (v, c, true)

/-- Modelled from the spec: the style half of a `GoTextFace` (declared
outside `src`): direction, size, language and script tags, OpenType feature
toggles and variation-axis assignments (tag/value pairs). -/
structure GoTextFace where
  direction : Direction
  size : Float64
  language : String
  script : String
  variations : List (Nat × Float64)
  features : List (Nat × Nat)
  deriving DecidableEq

/-- Modelled from the spec: canonicalization of a tag/value pair list for
key construction — a stable sort by tag (the spec's "sorted-and-joined"
canonical form). -/
def canonPairs {α : Type} (l : List (Nat × α)) : List (Nat × α) :=
  l.insertionSort (fun a b => a.1 ≤ b.1)

/-- Modelled from the spec: `GoTextFace.outputCacheKey` (declared outside
`src`) derives the shaping cache key from the text plus every style field,
with the variation and feature sets canonicalized. -/
def GoTextFace.outputCacheKey (f : GoTextFace) (text : List Nat) : goTextOutputCacheKey :=
  { text := text
    direction := f.direction
    size := f.size
    language := f.language
    script := f.script
    variations := canonPairs f.variations
    features := canonPairs f.features }

/-- Modelled from the spec: `glyphVariationCount` (declared outside `src`)
counts the variation configurations of a face; the spec treats the exact
formula as a tunable heuristic, so it is modelled as one more than the
number of variation axes — positive and growing with the axis set. -/
def glyphVariationCount (f : GoTextFace) : Nat :=
  f.variations.length + 1

/-- A `GoTextFaceSource` value (lines 62-72 of the source): the metadata
computed at construction, the single shaping cache, the size-indexed
glyph-image caches (`nil` map modelled as the empty association list, which
Go treats identically on read), and the `addr` self-pointer used by
`copyCheck`, modelled as a numeric address.  The parsed font `f` and the
`shaper` are external capabilities carried by the environment. -/
structure GoTextFaceSource where
  metadata : Metadata
  outputCache : Cache goTextOutputCacheKey goTextOutputCacheValue
  glyphImageCache : List (Float64 × Cache goTextGlyphImageCacheKey Nat)
  addr : Nat
  deriving DecidableEq

/-- `newGoTextFaceSource` (lines 92-100): stores the metadata, creates the
single shaping cache with capacity 512, leaves the glyph-image cache map
nil, and records the value's own address in `addr`. -/
def newGoTextFaceSource (addr : Nat) (metadata : Metadata) : GoTextFaceSource :=
  { metadata := metadata
    outputCache := Cache.empty _ _ 512
    glyphImageCache := []
    addr := addr }

/-- `copyCheck` (lines 147-151) as a predicate: a receiver living at
address `here` passes iff its stored self-address is `here`; a bitwise copy
of the original placed at a different address fails and the calling method
panics. -/
def GoTextFaceSource.copyCheckB (g : GoTextFaceSource) (here : Nat) : Bool :=
  decide (g.addr = here)

/-- `Metadata` (lines 153-156): a pure accessor returning the metadata
computed at construction.  It performs no copy check, so it cannot panic,
on the canonical instance or on a copy alike. -/
def GoTextFaceSource.Metadata (g : GoTextFaceSource) (here : Nat) : Option Metadata :=
  some g.metadata

/-- The UTF-8 encoded byte length of one Unicode scalar value, as Go
encodes it (1 to 4 bytes by codepoint range). -/
def runeByteLen (r : Nat) : Nat :=
  if r < 0x80 then 1 else if r < 0x800 then 2 else if r < 0x10000 then 3 else 4

/-- The UTF-8 byte length of a text (`len(text)` on a Go string holding
these scalars). -/
def byteLen (text : List Nat) : Nat :=
  (text.map runeByteLen).sum

/-- The byte offsets at which each rune of the text starts, beginning at
`acc` (the Go loop `for i := range text` yields exactly these offsets). -/
def byteOffsetsFrom (acc : Nat) : List Nat → List Nat
  | [] => []
  | r :: rs => acc :: byteOffsetsFrom (acc + runeByteLen r) rs

/-- The cluster mapping `indices` built by `shapeImpl` (lines 215-219):
the byte offset of every rune of the original, unsegmented text, followed
by the one-past-the-end sentinel `len(text)`. -/
def indicesOf (text : List Nat) : List Nat :=
  byteOffsetsFrom 0 text ++ [byteLen text]

/-- The external capabilities `shapeImpl` invokes, bundled: the font's
units-per-em (`f.Upem()`), the segmenter (`shaping.Segmenter.Split` with
the single-font map), the shaper (`shaping.HarfbuzzShaper.Shape`), the
baseline adjuster (`shaping.Line.AdjustBaselines`, which rewrites the
glyph offsets of the output in place through the shared glyph slice), the
font's glyph table (`f.GlyphData`) and the sideways outline transform
(`font.GlyphOutline.Sideways`).  The application of the face's variations
to the font (`f.SetVariations`, line 184) pins the mutable font state these
capabilities read for the duration of the call and is implicit in them. -/
structure ShapeEnv where
  upem : Nat
  segment : ShapingInput → List ShapingInput
  shape : ShapingInput → ShapingOutput
  adjustBaselines : ShapingOutput → List ShapingGlyph
  glyphData : Nat → GlyphData
  sideways : ℚ → List Segment → List Segment

/-- The `shaping.Input` record `shapeImpl` builds from the text and face
(lines 186-197). -/
def shapeInputOf (text : List Nat) (face : GoTextFace) : ShapingInput :=
  { text := text
    runStart := 0
    runEnd := text.length
    direction := face.direction
    fontFeatures := face.features
    size := float64ToFixed26_6 face.size
    script := face.script
    language := face.language }

/-- `GoTextFaceSource.scale` (lines 260-262): `size / float64(g.f.Upem())`. -/
def GoTextFaceSource.scale (upem : Nat) (size : ℚ) : ℚ :=
  size / (upem : ℚ)

/-- The argument `shapeImpl` passes to the sideways transform:
`fixed26_6ToFloat32(-gl.YOffset) / fixed26_6ToFloat32(out.Size) * float32(f.Upem())`
(line 227), computed exactly; `ℚ` division by zero yields 0 where the Go
float expression would overflow to an infinity, a case no claim touches. -/
def sidewaysArg (upem : Nat) (out : ShapingOutput) (sg : ShapingGlyph) : ℚ :=
  fixed26_6ToRat (-sg.yOffset) / fixed26_6ToRat out.size * (upem : ℚ)

/-- The `switch data := g.f.GlyphData(gl.GlyphID).(type)` of `shapeImpl`
(lines 224-236): outline segments with the sideways transform applied for
sideways output directions, SVG segments, the optional bitmap outline
segments, or no segments at all. -/
def extractSegs (env : ShapeEnv) (out : ShapingOutput) (sg : ShapingGlyph) : List Segment :=
  match env.glyphData sg.glyphID with
  | .outline segs =>
      if out.direction.isSideways then env.sideways (sidewaysArg env.upem out sg) segs
      else segs
  | .svg segs => segs
  | .bitmap (some segs) => segs
  | .bitmap none => []
  | .missing => []

/-- The per-segment scaling of `shapeImpl` (lines 240-246): every argument
point's X is multiplied by `scale` and its Y by `-scale`. -/
def scaleSegment (scale : ℚ) (s : Segment) : Segment :=
  { s with args := s.args.map (fun p => ⟨p.x * scale, p.y * (-scale)⟩) }

/-- Construction of one `glyph` record by `shapeImpl` (lines 221-254):
resolve the cluster span by indexing the cluster mapping of the full text
at the shaper-reported cluster index and at cluster index plus rune count
(an out-of-range index is the bounds-check panic, `none` here), extract and
scale the outline, and derive the bounds. -/
def buildGlyph (env : ShapeEnv) (text : List Nat) (out : ShapingOutput)
    (sg : ShapingGlyph) : Option glyph :=
  match (indicesOf text).get? sg.clusterIndex,
      (indicesOf text).get? (sg.clusterIndex + sg.runeCount) with
  | some si, some ei =>
      some
        { shapingGlyph := sg
          startIndex := si
          endIndex := ei
          scaledSegments := (extractSegs env out sg).map
            (scaleSegment (GoTextFaceSource.scale env.upem (fixed26_6ToRat out.size)))
          bounds := segmentsToBounds ((extractSegs env out sg).map
            (scaleSegment (GoTextFaceSource.scale env.upem (fixed26_6ToRat out.size)))) }
  | _, _ => none

/-- Collects a list of fallible results, failing (panicking) at the first
`none`, as the glyph loop of `shapeImpl` does. -/
def seqOptions {α : Type} : List (Option α) → Option (List α)
  | [] => some []
  | none :: _ => none
  | some a :: rest =>
    match seqOptions rest with
    | some as => some (a :: as)
    | none => none

/-- Shaping of one sub-run (the body of the `for i, input := range inputs`
loop, lines 209-255): invoke the shaper, adjust baselines across the
single-output line (the adjustment reaches the stored output through the
shared glyph slice), and build the glyph records of this sub-run against
the cluster mapping of the full original text. -/
def shapeSubRun (env : ShapeEnv) (text : List Nat) (inp : ShapingInput) :
    ShapingOutput × Option (List glyph) :=
  let out := env.shape inp
  let adj := env.adjustBaselines out
  let outEntry := { out with glyphs := adj }
  (outEntry, seqOptions (adj.map (buildGlyph env text out)))

/-- The segmented sub-runs in the order `shapeImpl` processes them (lines
199-205): the segmenter's output, reversed when the overall style direction
is right-to-left and untouched otherwise. -/
def reorderedInputs (env : ShapeEnv) (text : List Nat) (face : GoTextFace) :
    List ShapingInput :=
  if face.direction = Direction.rightToLeft then (env.segment (shapeInputOf text face)).reverse
  else env.segment (shapeInputOf text face)

/-- `GoTextFaceSource.shapeImpl` (lines 182-258): segment, reorder for
direction, shape each sub-run and accumulate all outputs and all glyphs in
sub-run-then-intra-run order; a bounds-check panic anywhere aborts the whole
call. -/
def shapeImpl (env : ShapeEnv) (text : List Nat) (face : GoTextFace) :
    Option (List ShapingOutput × List glyph) :=
  match seqOptions (((reorderedInputs env text face).map (shapeSubRun env text)).map Prod.snd) with
  | none => none
  | some gss =>
      some ((((reorderedInputs env text face).map (shapeSubRun env text))).map Prod.fst,
        gss.flatten)

/-- The shaping-cache computation `shape` installs on a miss (the closure
of lines 172-178): run the whole shaping pipeline and mark the result
cacheable unconditionally. -/
def shapeCompute (env : ShapeEnv) (text : List Nat) (face : GoTextFace) :
    Unit → Option (goTextOutputCacheValue × Bool) :=
  fun _ => (shapeImpl env text face).map (fun v => (⟨v.1, v.2⟩, true))

/-- `GoTextFaceSource.shape` (lines 168-180): check the copy guard, derive
the cache key, and delegate to the shaping cache's get-or-create with
`shapeCompute` as the computation.  The returned flag records whether
`shapeImpl` was invoked (shaping work performed); `none` is a panic. -/
def GoTextFaceSource.shape (env : ShapeEnv) (text : List Nat) (face : GoTextFace)
    (g : GoTextFaceSource) (here : Nat) :
    Option ((List ShapingOutput × List glyph) × GoTextFaceSource × Bool) :=
  if g.copyCheckB here = false then none
  else
    let key := face.outputCacheKey text
    match g.outputCache.getOrCreate goTextOutputCacheKeyBeq key (shapeCompute env text face) with
    | none => none
    | some (e, c2, computed) =>
      some ((e.outputs, e.glyphs), { g with outputCache := c2 }, computed)

/-- First value in the association list whose key matches under `beq` (a Go
map read; a `float64`-keyed map compares keys with IEEE `==`). -/
def assocFind {K V : Type} (beq : K → K → Bool) (k : K) : List (K × V) → Option V
  | [] => none
  | e :: rest => if beq k e.1 then some e.2 else assocFind beq k rest

/-- Replaces the first entry whose key matches under `beq` (a Go map write
to an existing key; the pointer-valued Go map mutates the cache in place,
modelled as writing the updated cache back). -/
def assocReplace {K V : Type} (beq : K → K → Bool) (k : K) (v : V) :
    List (K × V) → List (K × V)
  | [] => []
  | e :: rest => if beq k e.1 then (e.1, v) :: rest else e :: assocReplace beq k v rest

/-- The map-initialization half of `GoTextFaceSource.getOrCreateGlyphImage`
(lines 264-272): initialize the nil map on first use and lazily create the
per-size image cache with capacity `128 * glyphVariationCount(goTextFace)`
the first time a size is seen.  The method performs no copy check, so the
receiver's address never matters.  (With a NaN size the Go map read after
the insert still misses and the method call on the nil cache pointer panics
— `none` in the delegation half below.)  Images are modelled as numeric
handles. -/
def ensureSizeCache (g : GoTextFaceSource) (face : GoTextFace) :
    List (Float64 × Cache goTextGlyphImageCacheKey Nat) :=
  match assocFind Float64.beq face.size g.glyphImageCache with
  | some _ => g.glyphImageCache
  | none =>
      g.glyphImageCache ++
        [(face.size, Cache.empty goTextGlyphImageCacheKey Nat (128 * glyphVariationCount face))]

/-- The delegation half of `getOrCreateGlyphImage`: read the per-size cache
back out of the (possibly just extended) map and run its get-or-create,
writing the updated cache back in place of the stored one. -/
def GoTextFaceSource.getOrCreateGlyphImage (g : GoTextFaceSource) (here : Nat)
    (face : GoTextFace) (key : goTextGlyphImageCacheKey)
    (create : Unit → Option (Nat × Bool)) : Option (Nat × GoTextFaceSource) :=
  match assocFind Float64.beq face.size (ensureSizeCache g face) with
  | none => none
  | some c =>
    match c.getOrCreate goTextGlyphImageCacheKeyBeq key create with
    | none => none
    | some (img, c2, _) =>
      some (img,
        { g with glyphImageCache := assocReplace Float64.beq face.size c2 (ensureSizeCache g face) })

/-- Go errors surfaced by the font loading chain, modelled as messages. -/
abbrev GoError := String

/-- The external font-parsing capabilities `NewGoTextFaceSourcesFromCollection`
invokes: converting the byte source to a random-access font resource
(`toFontResource`), opening the collection's loaders (`opentype.NewLoaders`),
parsing one font per loader (`font.NewFont`) and deriving its metadata
(`metadataFromFace`).  Byte sources, resources, loaders and fonts are opaque
handles. -/
structure LoadEnv where
  toFontResource : Nat → Except GoError Nat
  newLoaders : Nat → Except GoError (List Nat)
  newFont : Nat → Except GoError Nat
  metadataFromFace : Nat → Metadata

/-- The loader loop of `NewGoTextFaceSourcesFromCollection` (lines
135-143): one fresh `GoTextFaceSource` per loader, each at its own fresh
address; the first font-parsing failure abandons the loop and returns a nil
slice together with that error, as the Go `return nil, err` does. -/
def buildSources (env : LoadEnv) : Nat → List Nat →
    Option (List GoTextFaceSource) × Option GoError
  | _, [] => (some [], none)
  | alloc, l :: rest =>
    match env.newFont l with
    | .error e => (none, some e)
    | .ok f =>
      match buildSources env (alloc + 1) rest with
      | (some ss, _) => (some (newGoTextFaceSource alloc (env.metadataFromFace f) :: ss), none)
      | (none, oe) => (none, oe)

/-- `NewGoTextFaceSourcesFromCollection` (lines 124-145): resolve the byte
source, open the loaders, then build one source per loader; every failure
returns a nil slice together with the error. -/
def NewGoTextFaceSourcesFromCollection (env : LoadEnv) (source : Nat) (alloc : Nat) :
    Option (List GoTextFaceSource) × Option GoError :=
  match env.toFontResource source with
  | .error e => (none, some e)
  | .ok res =>
    match env.newLoaders res with
    | .error e => (none, some e)
    | .ok ls => buildSources env alloc ls

/-- A concrete stub shaping environment for evaluating the embedding on
concrete inputs: one sub-run per rune, one glyph per rune with cluster index
equal to the rune's position, a filled-outline glyph whose single segment
carries a point with positive Y, and identity baseline/sideways
transforms. -/
def stubEnv : ShapeEnv :=
  { upem := 1000
    segment := fun inp =>
      (List.range inp.text.length).map (fun i => { inp with runStart := i, runEnd := i + 1 })
    shape := fun inp =>
      { glyphs :=
          ((List.range (inp.runEnd - inp.runStart)).map
            (fun j =>
              { glyphID := 7
                clusterIndex := inp.runStart + j
                runeCount := 1
                xOffset := 0
                yOffset := 0 }))
        size := inp.size
        direction := ODirection.horizontal }
    adjustBaselines := fun out => out.glyphs
    glyphData := fun _ => GlyphData.outline [⟨1, [⟨3, 2⟩, ⟨0, 0⟩, ⟨0, 0⟩]⟩]
    sideways := fun _ segs => segs }

/-- A stub environment whose shaper reports an out-of-range cluster index
for every run, for exercising the bounds-check panic. -/
def stubEnvBad : ShapeEnv :=
  { stubEnv with
    shape := fun inp =>
      { glyphs := [{ glyphID := 7, clusterIndex := inp.text.length, runeCount := 5,
                     xOffset := 0, yOffset := 0 }]
        size := inp.size
        direction := ODirection.horizontal } }

/-- A concrete left-to-right style at size 16 with one variation axis and
one feature toggle. -/
def face0 : GoTextFace :=
  { direction := Direction.leftToRight
    size := Float64.finite 16
    language := "en"
    script := "Latn"
    variations := [(100, Float64.finite 1)]
    features := [(200, 1)] }

/-- The same style with a NaN size. -/
def faceNaN : GoTextFace :=
  { face0 with size := Float64.nan }

/-- A concrete two-rune text: a three-byte hiragana scalar followed by an
ASCII letter, so byte offsets and rune indices visibly differ. -/
def text0 : List Nat := [0x3042, 0x42]

/-- A concrete face source at address 1. -/
def src0 : GoTextFaceSource := newGoTextFaceSource 1 ⟨"stub"⟩

/-- The result of a first concrete `shape` call on the stub environment. -/
def firstTriple : (List ShapingOutput × List glyph) × GoTextFaceSource × Bool :=
  (GoTextFaceSource.shape stubEnv text0 face0 src0 1).get (by decide)

/-- The result of a first concrete `shapeImpl` run on the stub
environment. -/
def implPair : List ShapingOutput × List glyph :=
  (shapeImpl stubEnv text0 face0).get (by decide)

/-- The first glyph of the concrete run. -/
def glyph0 : glyph := implPair.2.get ⟨0, by decide⟩

/-- The second glyph of the concrete run. -/
def glyph1 : glyph := implPair.2.get ⟨1, by decide⟩

/-- The two-scalar text of the spec's direction-reorder test. -/
def textAB : List Nat := [0x41, 0x42]

/-- The concrete right-to-left style. -/
def faceRTL : GoTextFace := { face0 with direction := Direction.rightToLeft }

/-- The concrete `shapeImpl` run on the right-to-left style. -/
def implPairRTL : List ShapingOutput × List glyph :=
  (shapeImpl stubEnv textAB faceRTL).get (by decide)

/-- The concrete `shapeImpl` run on the left-to-right style. -/
def implPairLTR : List ShapingOutput × List glyph :=
  (shapeImpl stubEnv textAB face0).get (by decide)

/-- A style differing from another in exactly one of the fields that enter
the shaping cache key: the size (within the spec's positive range), the
direction, the language, the script, one variation axis value, or one
feature toggle value — all other fields equal. -/
def singleStyleFieldChange (f f2 : GoTextFace) : Prop :=
  (f2.size ≠ f.size ∧ Float64.isPosFinite f.size = true ∧
      Float64.isPosFinite f2.size = true ∧ f2.direction = f.direction ∧
      f2.language = f.language ∧ f2.script = f.script ∧
      f2.variations = f.variations ∧ f2.features = f.features) ∨
    (f2.direction ≠ f.direction ∧ f2.size = f.size ∧ f2.language = f.language ∧
      f2.script = f.script ∧ f2.variations = f.variations ∧ f2.features = f.features) ∨
    (f2.language ≠ f.language ∧ f2.size = f.size ∧ f2.direction = f.direction ∧
      f2.script = f.script ∧ f2.variations = f.variations ∧ f2.features = f.features) ∨
    (f2.script ≠ f.script ∧ f2.size = f.size ∧ f2.direction = f.direction ∧
      f2.language = f.language ∧ f2.variations = f.variations ∧ f2.features = f.features) ∨
    (∃ pre t v v2 post, v ≠ v2 ∧ f.variations = pre ++ (t, v) :: post ∧
      f2.variations = pre ++ (t, v2) :: post ∧ f2.size = f.size ∧
      f2.direction = f.direction ∧ f2.language = f.language ∧ f2.script = f.script ∧
      f2.features = f.features) ∨
    (∃ pre t v v2 post, v ≠ v2 ∧ f.features = pre ++ (t, v) :: post ∧
      f2.features = pre ++ (t, v2) :: post ∧ f2.size = f.size ∧
      f2.direction = f.direction ∧ f2.language = f.language ∧ f2.script = f.script ∧
      f2.variations = f.variations)

/-- A glyph-image cache key for the concrete runs. -/
def imgKey0 : goTextGlyphImageCacheKey :=
  { gid := 7, xoffset := 0, yoffset := 0, variations := [] }

/-- A rasterizer stub that always caches image 7. -/
def createStub : Unit → Option (Nat × Bool) := fun _ => some (7, true)

/-- State and value of the first NaN-size `shape` call. -/
def nanFirst : (List ShapingOutput × List glyph) × GoTextFaceSource × Bool :=
  (GoTextFaceSource.shape stubEnv text0 faceNaN src0 1).get (by decide)

/-- The state after a first concrete glyph-image request at size 16. -/
def imgRes : Nat × GoTextFaceSource :=
  (GoTextFaceSource.getOrCreateGlyphImage src0 1 face0 imgKey0 createStub).get (by decide)

/-- A loading environment whose second loader's font fails to parse. -/
def envFail : LoadEnv :=
  { toFontResource := fun s => Except.ok s
    newLoaders := fun _ => Except.ok [0, 1, 2]
    newFont := fun l => if l = 1 then Except.error "bad" else Except.ok l
    metadataFromFace := fun _ => ⟨"m"⟩ }

/-- A loading environment where every font parses. -/
def envOk : LoadEnv :=
  { envFail with newFont := fun l => Except.ok l }

/-- A found cache entry's key matches the query under `beq`. -/
theorem extractEntry_some_beq {K V : Type} (beq : K → K → Bool) (k : K)
    (l : List (K × V)) (e : K × V) (rest : List (K × V))
    (h : extractEntry beq k l = some (e, rest)) : beq k e.1 = true := by
  induction l generalizing rest with
  | nil => simp [extractEntry] at h
  | cons hd tl ih =>
    unfold extractEntry at h
    by_cases hb : beq k hd.1 = true
    · rw [if_pos hb] at h
      simp only [Option.some.injEq, Prod.mk.injEq] at h
      rw [← h.1]
      exact hb
    · rw [if_neg hb] at h
      cases hx : extractEntry beq k tl with
      | none => rw [hx] at h; exact absurd h (by simp)
      | some p =>
        rw [hx] at h
        simp only [Option.some.injEq, Prod.mk.injEq] at h
        exact ih p.2 (by rw [hx, ← h.1])

/-- After a successful `getOrCreate` with an always-cacheable computation
and positive capacity, the returned value sits at the front of the cache
under a key matching the query. -/
theorem getOrCreate_some_head {K V : Type} (beq : K → K → Bool) (k : K)
    (c : Cache K V) (compute : Unit → Option (V × Bool)) (v : V) (c2 : Cache K V)
    (flag : Bool) (hcap : 0 < c.capacity) (hrefl : beq k k = true)
    (hcacheable : ∀ w b, compute () = some (w, b) → b = true)
    (h : c.getOrCreate beq k compute = some (v, c2, flag)) :
    c2.capacity = c.capacity ∧
      ∃ k0 rest, c2.entries = (k0, v) :: rest ∧ beq k k0 = true := by
  unfold Cache.getOrCreate at h
  cases hext : extractEntry beq k c.entries with
  | some p =>
    rw [hext] at h
    simp only [Option.some.injEq, Prod.mk.injEq] at h
    obtain ⟨hv, hc2, _⟩ := h
    refine ⟨by rw [← hc2], p.1.1, p.2, ?_, ?_⟩
    · rw [← hc2]
      show p.1 :: p.2 = (p.1.1, v) :: p.2
      rw [← hv]
    · exact extractEntry_some_beq beq k c.entries p.1 p.2 (by rw [hext])
  | none =>
    rw [hext] at h
    cases hcomp : compute () with
    | none => rw [hcomp] at h; simp at h
    | some w =>
      rw [hcomp] at h
      obtain ⟨wv, wb⟩ := w
      have hb := hcacheable wv wb hcomp
      subst hb
      simp at h
      obtain ⟨hv, hc2, _⟩ := h
      obtain ⟨n, hn⟩ : ∃ n, c.capacity = n + 1 := ⟨c.capacity - 1, by omega⟩
      refine ⟨by rw [← hc2], k, c.entries.take n, ?_, hrefl⟩
      rw [← hc2]
      simp [hn, hv, List.take_succ_cons]

/-- A `getOrCreate` whose key matches the front entry is a pure hit: the
stored value is returned and the computation is not invoked. -/
theorem getOrCreate_hit {K V : Type} (beq : K → K → Bool) (k k0 : K)
    (c : Cache K V) (compute : Unit → Option (V × Bool)) (v : V)
    (rest : List (K × V)) (hhead : c.entries = (k0, v) :: rest)
    (hbeq : beq k k0 = true) :
    c.getOrCreate beq k compute = some (v, ⟨c.capacity, (k0, v) :: rest⟩, false) := by
  unfold Cache.getOrCreate
  rw [hhead]
  simp [extractEntry, hbeq]

/-- Mapping `some` over a list is a `seqOptions` success. -/
theorem seqOptions_map_some {α : Type} (xs : List α) :
    seqOptions (xs.map some) = some xs := by
  induction xs with
  | nil => rfl
  | cons hd tl ih => simp [seqOptions, ih]

/-- A `seqOptions` success comes from a list of successes. -/
theorem seqOptions_some_inv {α : Type} :
    ∀ (l : List (Option α)) (xs : List α),
      seqOptions l = some xs → l = xs.map some := by
  intro l
  induction l with
  | nil =>
    intro xs h
    cases xs with
    | nil => rfl
    | cons y ys => simp [seqOptions] at h
  | cons hd tl ih =>
    intro xs h
    cases hd with
    | none => simp [seqOptions] at h
    | some a =>
      cases htl : seqOptions tl with
      | none => simp [seqOptions, htl] at h
      | some as =>
        simp only [seqOptions, htl, Option.some.injEq] at h
        rw [← h, List.map_cons, ih as htl]

/-- `seqOptions` succeeds exactly on lists of successes, returning them. -/
theorem seqOptions_eq_some {α : Type} (l : List (Option α)) (xs : List α) :
    seqOptions l = some xs ↔ l = xs.map some :=
  ⟨seqOptions_some_inv l xs, fun h => h ▸ seqOptions_map_some xs⟩

/-- `seqOptions` fails exactly when some element is a failure. -/
theorem seqOptions_eq_none {α : Type} :
    ∀ (l : List (Option α)), seqOptions l = none ↔ none ∈ l := by
  intro l
  induction l with
  | nil => simp [seqOptions]
  | cons hd tl ih =>
    cases hd with
    | none => simp [seqOptions]
    | some a =>
      cases htl : seqOptions tl with
      | none =>
        simp [seqOptions, htl]
        exact ih.mp htl
      | some as =>
        simp [seqOptions, htl]
        intro hmem
        have hn := ih.mpr hmem
        rw [hn] at htl
        exact absurd htl (by simp)

/-- The computation `shape` installs always marks its result cacheable. -/
theorem shapeCompute_cacheable (env : ShapeEnv) (text : List Nat) (face : GoTextFace) :
    ∀ w b, shapeCompute env text face () = some (w, b) → b = true := by
  intro w b h
  unfold shapeCompute at h
  cases hs : shapeImpl env text face with
  | none => rw [hs] at h; simp at h
  | some p => rw [hs] at h; simp at h; exact h.2

/-- Inversion of a successful `shape` call: the copy guard passed, the
cache's get-or-create succeeded with the same flag, the returned pair is the
cached entry's, and only the shaping cache of the state changed. -/
theorem shape_some_inv (env : ShapeEnv) (text : List Nat) (face : GoTextFace)
    (g : GoTextFaceSource) (here : Nat)
    (r : List ShapingOutput × List glyph) (g1 : GoTextFaceSource) (b : Bool)
    (h : GoTextFaceSource.shape env text face g here = some (r, g1, b)) :
    g.copyCheckB here = true ∧
      ∃ e c2,
        g.outputCache.getOrCreate goTextOutputCacheKeyBeq (face.outputCacheKey text)
            (shapeCompute env text face) = some (e, c2, b) ∧
          r = (e.outputs, e.glyphs) ∧ g1 = { g with outputCache := c2 } := by
  unfold GoTextFaceSource.shape at h
  cases hcc : g.copyCheckB here with
  | false => rw [hcc] at h; simp at h
  | true =>
    rw [hcc] at h
    simp only [Bool.true_eq_false, if_false] at h
    cases hget : g.outputCache.getOrCreate goTextOutputCacheKeyBeq (face.outputCacheKey text)
        (shapeCompute env text face) with
    | none => rw [hget] at h; simp at h
    | some t =>
      rw [hget] at h
      obtain ⟨e, c2, flag⟩ := t
      simp at h
      obtain ⟨hr, hg1, hb⟩ := h
      exact ⟨rfl, e, c2, by rw [hb], hr.symm, hg1.symm⟩

/-- C1: for every text and style, after a `shape` call returns, a second
`shape` call whose `(text, style)` arguments are cache-equivalent (they
derive the same cache key, i.e. every key field compares equal) returns the
identical previously computed `(outputs, glyphs)` value with the computed
flag `false`: the shaping pipeline — segmentation, the shaper, outline
extraction and scaling — is not invoked, whatever environment the second
call carries. -/
theorem shape_cache_hit_contract (env : ShapeEnv) (text : List Nat) (face : GoTextFace)
    (g : GoTextFaceSource) (here : Nat)
    (r : List ShapingOutput × List glyph) (g1 : GoTextFaceSource) (b : Bool)
    (hcap : 0 < g.outputCache.capacity)
    (hrefl : goTextOutputCacheKeyBeq (face.outputCacheKey text)
      (face.outputCacheKey text) = true)
    (h1 : GoTextFaceSource.shape env text face g here = some (r, g1, b)) :
    ∀ (env2 : ShapeEnv) (text2 : List Nat) (face2 : GoTextFace),
      face2.outputCacheKey text2 = face.outputCacheKey text →
      ∃ g2, GoTextFaceSource.shape env2 text2 face2 g1 here = some (r, g2, false) := by
  obtain ⟨hcc, e, c2, hget, hr, hg1⟩ := shape_some_inv env text face g here r g1 b h1
  obtain ⟨hcap2, k0, rest, hent, hbeq⟩ :=
    getOrCreate_some_head goTextOutputCacheKeyBeq (face.outputCacheKey text)
      g.outputCache (shapeCompute env text face) e c2 b hcap hrefl
      (shapeCompute_cacheable env text face) hget
  intro env2 text2 face2 hkey
  subst hg1
  refine ⟨{ metadata := g.metadata,
            outputCache := ⟨c2.capacity, (k0, e) :: rest⟩,
            glyphImageCache := g.glyphImageCache,
            addr := g.addr }, ?_⟩
  unfold GoTextFaceSource.shape
  have hcc1 : GoTextFaceSource.copyCheckB { g with outputCache := c2 } here = true := hcc
  rw [hcc1]
  simp only [Bool.true_eq_false, if_false]
  rw [hkey]
  have hhit := getOrCreate_hit goTextOutputCacheKeyBeq (face.outputCacheKey text) k0 c2
    (shapeCompute env2 text2 face2) e rest hent hbeq
  rw [hhit, hr]

/-- Witness for C1: at the concrete stub input, the second call returns the
first call's value without shaping work. -/
theorem shape_cache_hit_contract_witness :
    ∃ g2, GoTextFaceSource.shape stubEnv text0 face0 firstTriple.2.1 1 =
      some (firstTriple.1, g2, false) :=
  shape_cache_hit_contract stubEnv text0 face0 src0 1
    firstTriple.1 firstTriple.2.1 firstTriple.2.2
    (by decide) (by decide) (Option.some_get (by decide)).symm
    stubEnv text0 face0 rfl

/-- Inversion of a successful `shapeImpl`: the glyph construction of every
sub-run succeeded, the outputs are the per-sub-run outputs in processing
order and the glyphs are their builds concatenated. -/
theorem shapeImpl_some_inv (env : ShapeEnv) (text : List Nat) (face : GoTextFace)
    (outputs : List ShapingOutput) (gs : List glyph)
    (h : shapeImpl env text face = some (outputs, gs)) :
    ∃ gss,
      seqOptions (((reorderedInputs env text face).map (shapeSubRun env text)).map Prod.snd)
          = some gss ∧
        outputs = ((reorderedInputs env text face).map (shapeSubRun env text)).map Prod.fst ∧
        gs = gss.flatten := by
  unfold shapeImpl at h
  cases hseq : seqOptions (((reorderedInputs env text face).map (shapeSubRun env text)).map
      Prod.snd) with
  | none => rw [hseq] at h; simp at h
  | some gss =>
    rw [hseq] at h
    simp only [Option.some.injEq, Prod.mk.injEq] at h
    exact ⟨gss, rfl, h.1.symm, h.2.symm⟩

/-- Every glyph of a successful `shapeImpl` was built by `buildGlyph`
against one of the returned outputs. -/
theorem shapeImpl_glyph_mem (env : ShapeEnv) (text : List Nat) (face : GoTextFace)
    (outputs : List ShapingOutput) (gs : List glyph)
    (h : shapeImpl env text face = some (outputs, gs)) (gl : glyph) (hgl : gl ∈ gs) :
    ∃ out ∈ outputs, ∃ sg, buildGlyph env text out sg = some gl := by
  obtain ⟨gss, hseq, houts, hgs⟩ := shapeImpl_some_inv env text face outputs gs h
  subst houts
  subst hgs
  rw [List.mem_flatten] at hgl
  obtain ⟨glist, hglist, hglmem⟩ := hgl
  have hmaps := seqOptions_some_inv _ _ hseq
  have hsome : some glist ∈ ((reorderedInputs env text face).map (shapeSubRun env text)).map
      Prod.snd := by
    rw [hmaps]
    exact List.mem_map_of_mem some hglist
  rw [List.mem_map] at hsome
  obtain ⟨pair, hpair, hpeq⟩ := hsome
  have houtmem : pair.1 ∈ ((reorderedInputs env text face).map (shapeSubRun env text)).map
      Prod.fst := List.mem_map_of_mem Prod.fst hpair
  rw [List.mem_map] at hpair
  obtain ⟨inp, hinp, hpe⟩ := hpair
  subst hpe
  have hbuilt : (env.adjustBaselines (env.shape inp)).map
      (buildGlyph env text (env.shape inp)) = glist.map some :=
    seqOptions_some_inv _ _ hpeq
  have hglsome : some gl ∈ (env.adjustBaselines (env.shape inp)).map
      (buildGlyph env text (env.shape inp)) := by
    rw [hbuilt]
    exact List.mem_map_of_mem some hglmem
  rw [List.mem_map] at hglsome
  obtain ⟨sg, _, hsg⟩ := hglsome
  exact ⟨(shapeSubRun env text inp).1, houtmem, sg, hsg⟩

/-- What a successful `buildGlyph` returns: the glyph carries the shaper
glyph, its cluster span resolved through the cluster mapping of the full
text, and the extracted outline scaled by `out.size / upem` on X and its
negation on Y. -/
theorem buildGlyph_some_spec (env : ShapeEnv) (text : List Nat) (out : ShapingOutput)
    (sg : ShapingGlyph) (gl : glyph) (h : buildGlyph env text out sg = some gl) :
    gl.shapingGlyph = sg ∧
      (indicesOf text).get? sg.clusterIndex = some gl.startIndex ∧
      (indicesOf text).get? (sg.clusterIndex + sg.runeCount) = some gl.endIndex ∧
      gl.scaledSegments = (extractSegs env out sg).map
        (scaleSegment (GoTextFaceSource.scale env.upem (fixed26_6ToRat out.size))) := by
  unfold buildGlyph at h
  cases h1 : (indicesOf text).get? sg.clusterIndex with
  | none => rw [h1] at h; simp at h
  | some si =>
    cases h2 : (indicesOf text).get? (sg.clusterIndex + sg.runeCount) with
    | none => rw [h1, h2] at h; simp at h
    | some ei =>
      rw [h1, h2] at h
      simp only [Option.some.injEq] at h
      subst h
      exact ⟨rfl, rfl, rfl, rfl⟩

/-- Length of the rune-offset list. -/
theorem byteOffsetsFrom_length :
    ∀ (text : List Nat) (acc : Nat), (byteOffsetsFrom acc text).length = text.length := by
  intro text
  induction text with
  | nil => intro acc; rfl
  | cons r rs ih => intro acc; simp [byteOffsetsFrom, ih]

/-- The cluster mapping has one entry per rune plus the sentinel. -/
theorem indicesOf_length (text : List Nat) :
    (indicesOf text).length = text.length + 1 := by
  simp [indicesOf, byteOffsetsFrom_length]

/-- Every rune-start offset is bounded by the starting offset plus the
text's byte length. -/
theorem byteOffsetsFrom_le :
    ∀ (text : List Nat) (acc x : Nat), x ∈ byteOffsetsFrom acc text →
      x ≤ acc + byteLen text := by
  intro text
  induction text with
  | nil => intro acc x h; simp [byteOffsetsFrom] at h
  | cons r rs ih =>
    intro acc x h
    simp only [byteOffsetsFrom, List.mem_cons] at h
    cases h with
    | inl he => subst he; omega
    | inr hm =>
      have := ih (acc + runeByteLen r) x hm
      simp only [byteLen, List.map_cons, List.sum_cons] at *
      omega

/-- Every entry of the cluster mapping is a byte offset of the full text,
bounded by its total byte length. -/
theorem mem_indicesOf_le (text : List Nat) (x : Nat) (h : x ∈ indicesOf text) :
    x ≤ byteLen text := by
  simp only [indicesOf, List.mem_append, List.mem_singleton] at h
  cases h with
  | inl hm => have := byteOffsetsFrom_le text 0 x hm; omega
  | inr he => omega

/-- `buildGlyph` panics exactly when the shaper-reported cluster span
exceeds the cluster mapping's bounds. -/
theorem buildGlyph_none_iff (env : ShapeEnv) (text : List Nat) (out : ShapingOutput)
    (sg : ShapingGlyph) :
    buildGlyph env text out sg = none ↔
      text.length < sg.clusterIndex + sg.runeCount := by
  unfold buildGlyph
  cases h1 : (indicesOf text).get? sg.clusterIndex with
  | none =>
    have hlen := List.get?_eq_none.mp h1
    rw [indicesOf_length] at hlen
    have hr : text.length < sg.clusterIndex + sg.runeCount := by omega
    simp [hr]
  | some si =>
    cases h2 : (indicesOf text).get? (sg.clusterIndex + sg.runeCount) with
    | none =>
      have hlen := List.get?_eq_none.mp h2
      rw [indicesOf_length] at hlen
      have hr : text.length < sg.clusterIndex + sg.runeCount := by omega
      simp [hr]
    | some ei =>
      have hlt : sg.clusterIndex + sg.runeCount < (indicesOf text).length := by
        by_contra hge
        rw [List.get?_eq_none.mpr (by omega)] at h2
        exact absurd h2 (by simp)
      rw [indicesOf_length] at hlt
      have hr : ¬(text.length < sg.clusterIndex + sg.runeCount) := by omega
      simp [hr]

/-- The glyph build of one sub-run panics exactly when the shaper reported
an out-of-range cluster span for some glyph of that sub-run. -/
theorem shapeSubRun_snd_none_iff (env : ShapeEnv) (text : List Nat) (inp : ShapingInput) :
    (shapeSubRun env text inp).2 = none ↔
      ∃ sg ∈ env.adjustBaselines (env.shape inp),
        text.length < sg.clusterIndex + sg.runeCount := by
  show seqOptions ((env.adjustBaselines (env.shape inp)).map
    (buildGlyph env text (env.shape inp))) = none ↔ _
  rw [seqOptions_eq_none]
  constructor
  · intro h
    rw [List.mem_map] at h
    obtain ⟨sg, hsg, hb⟩ := h
    exact ⟨sg, hsg, (buildGlyph_none_iff env text (env.shape inp) sg).mp hb⟩
  · intro h
    obtain ⟨sg, hsg, hoob⟩ := h
    rw [List.mem_map]
    exact ⟨sg, hsg, (buildGlyph_none_iff env text (env.shape inp) sg).mpr hoob⟩

/-- `shapeImpl` panics exactly when some processed sub-run fails. -/
theorem shapeImpl_eq_none_aux (env : ShapeEnv) (text : List Nat) (face : GoTextFace) :
    shapeImpl env text face = none ↔
      seqOptions (((reorderedInputs env text face).map (shapeSubRun env text)).map Prod.snd)
        = none := by
  unfold shapeImpl
  cases hseq : seqOptions (((reorderedInputs env text face).map (shapeSubRun env text)).map
      Prod.snd) <;> simp

/-- `shapeImpl` panics exactly when the shaper reported an out-of-range
cluster span for some glyph of some sub-run. -/
theorem shapeImpl_none_iff (env : ShapeEnv) (text : List Nat) (face : GoTextFace) :
    shapeImpl env text face = none ↔
      ∃ inp ∈ reorderedInputs env text face,
        ∃ sg ∈ env.adjustBaselines (env.shape inp),
          text.length < sg.clusterIndex + sg.runeCount := by
  rw [shapeImpl_eq_none_aux, seqOptions_eq_none]
  constructor
  · intro h
    rw [List.mem_map] at h
    obtain ⟨pair, hpair, hp2⟩ := h
    rw [List.mem_map] at hpair
    obtain ⟨inp, hinp, hpe⟩ := hpair
    subst hpe
    exact ⟨inp, hinp, (shapeSubRun_snd_none_iff env text inp).mp hp2⟩
  · intro h
    obtain ⟨inp, hinp, hex⟩ := h
    rw [List.mem_map]
    exact ⟨shapeSubRun env text inp, List.mem_map_of_mem (shapeSubRun env text) hinp,
      (shapeSubRun_snd_none_iff env text inp).mpr hex⟩

/-- C2: every glyph of a successful `shapeImpl` has its outline scaled from
one of the returned outputs with scale `out.size / unitsPerEm`
(`GoTextFaceSource.scale`), every X multiplied by the scale and every Y by
its negation; consequently a raw outline point with positive Y maps, under
a positive scale, to a scaled coordinate with negative Y. -/
theorem shapeImpl_scale_and_sign (env : ShapeEnv) (text : List Nat) (face : GoTextFace)
    (outputs : List ShapingOutput) (gs : List glyph)
    (h : shapeImpl env text face = some (outputs, gs)) :
    ∀ gl ∈ gs, ∃ out ∈ outputs,
      gl.scaledSegments = (extractSegs env out gl.shapingGlyph).map
        (scaleSegment (GoTextFaceSource.scale env.upem (fixed26_6ToRat out.size))) ∧
      ∀ si s, (extractSegs env out gl.shapingGlyph).get? si = some s →
        ∀ pi p, s.args.get? pi = some p →
          ∃ s2, gl.scaledSegments.get? si = some s2 ∧
            s2.args.get? pi =
              some ⟨p.x * GoTextFaceSource.scale env.upem (fixed26_6ToRat out.size),
                p.y * (-GoTextFaceSource.scale env.upem (fixed26_6ToRat out.size))⟩ ∧
            (0 < p.y → 0 < GoTextFaceSource.scale env.upem (fixed26_6ToRat out.size) →
              p.y * (-GoTextFaceSource.scale env.upem (fixed26_6ToRat out.size)) < 0) := by
  intro gl hgl
  obtain ⟨out, hout, sg, hb⟩ := shapeImpl_glyph_mem env text face outputs gs h gl hgl
  obtain ⟨hsg, _, _, hsc⟩ := buildGlyph_some_spec env text out sg gl hb
  subst hsg
  refine ⟨out, hout, hsc, ?_⟩
  intro si s hs pi p hp
  refine ⟨scaleSegment (GoTextFaceSource.scale env.upem (fixed26_6ToRat out.size)) s,
    ?_, ?_, ?_⟩
  · rw [hsc, List.get?_map, hs]
    rfl
  · show (s.args.map (fun p =>
      (⟨p.x * GoTextFaceSource.scale env.upem (fixed26_6ToRat out.size),
        p.y * (-GoTextFaceSource.scale env.upem (fixed26_6ToRat out.size))⟩ : Point))).get? pi
      = _
    rw [List.get?_map, hp]
    rfl
  · intro hy hsc2
    exact mul_neg_of_pos_of_neg hy (by linarith)

/-- Witness for C2 at the concrete stub input. -/
theorem shapeImpl_scale_and_sign_witness :
    ∃ out ∈ implPair.1,
      glyph0.scaledSegments = (extractSegs stubEnv out glyph0.shapingGlyph).map
        (scaleSegment (GoTextFaceSource.scale stubEnv.upem (fixed26_6ToRat out.size))) ∧
      ∀ si s, (extractSegs stubEnv out glyph0.shapingGlyph).get? si = some s →
        ∀ pi p, s.args.get? pi = some p →
          ∃ s2, glyph0.scaledSegments.get? si = some s2 ∧
            s2.args.get? pi =
              some ⟨p.x * GoTextFaceSource.scale stubEnv.upem (fixed26_6ToRat out.size),
                p.y * (-GoTextFaceSource.scale stubEnv.upem (fixed26_6ToRat out.size))⟩ ∧
            (0 < p.y → 0 < GoTextFaceSource.scale stubEnv.upem (fixed26_6ToRat out.size) →
              p.y * (-GoTextFaceSource.scale stubEnv.upem (fixed26_6ToRat out.size)) < 0) :=
  shapeImpl_scale_and_sign stubEnv text0 face0 implPair.1 implPair.2
    (Option.some_get (by decide)).symm glyph0 (implPair.2.get_mem _ _)

/-- C5: under a right-to-left overall style direction the outputs of
`shapeImpl` are the segmenter's sub-runs in reversed order, each shaped
individually (internal glyph order untouched — every output is exactly the
per-sub-run shaping result); under any other direction the sub-run order is
exactly as the segmenter produced it. -/
theorem shapeImpl_direction_reorder (env : ShapeEnv) (text : List Nat) (face : GoTextFace)
    (outputs : List ShapingOutput) (gs : List glyph)
    (h : shapeImpl env text face = some (outputs, gs)) :
    (face.direction = Direction.rightToLeft →
      outputs = ((env.segment (shapeInputOf text face)).reverse).map
        (fun inp => (shapeSubRun env text inp).1)) ∧
    (face.direction ≠ Direction.rightToLeft →
      outputs = (env.segment (shapeInputOf text face)).map
        (fun inp => (shapeSubRun env text inp).1)) := by
  obtain ⟨gss, hseq, houts, hgs⟩ := shapeImpl_some_inv env text face outputs gs h
  subst houts
  constructor
  · intro hd
    rw [List.map_map]
    unfold reorderedInputs
    rw [if_pos hd]
    rfl
  · intro hd
    rw [List.map_map]
    unfold reorderedInputs
    rw [if_neg hd]
    rfl

/-- Witness for C5 on the concrete "AB" runs of both directions. -/
theorem shapeImpl_direction_reorder_witness :
    implPairRTL.1 = ((stubEnv.segment (shapeInputOf textAB faceRTL)).reverse).map
      (fun inp => (shapeSubRun stubEnv textAB inp).1) ∧
    implPairLTR.1 = (stubEnv.segment (shapeInputOf textAB face0)).map
      (fun inp => (shapeSubRun stubEnv textAB inp).1) :=
  ⟨(shapeImpl_direction_reorder stubEnv textAB faceRTL implPairRTL.1 implPairRTL.2
      (Option.some_get (by decide)).symm).1 rfl,
    (shapeImpl_direction_reorder stubEnv textAB face0 implPairLTR.1 implPairLTR.2
      (Option.some_get (by decide)).symm).2 (by decide)⟩

/-- C7: the cluster spans of every produced glyph are resolved by indexing
the cluster mapping of the original unsegmented text (every rune's byte
offset plus the one-past-the-end sentinel) at the shaper-reported cluster
index and at cluster index plus rune count, and `shapeImpl` panics exactly
when some sub-run's shaper output reports a cluster span exceeding the
mapping's bounds — no glyph is silently produced. -/
theorem shapeImpl_cluster_mapping_contract (env : ShapeEnv) (text : List Nat)
    (face : GoTextFace) :
    (∀ outputs gs, shapeImpl env text face = some (outputs, gs) →
      ∀ gl ∈ gs,
        (indicesOf text).get? gl.shapingGlyph.clusterIndex = some gl.startIndex ∧
        (indicesOf text).get? (gl.shapingGlyph.clusterIndex + gl.shapingGlyph.runeCount)
          = some gl.endIndex) ∧
    (shapeImpl env text face = none ↔
      ∃ inp ∈ reorderedInputs env text face,
        ∃ sg ∈ env.adjustBaselines (env.shape inp),
          text.length < sg.clusterIndex + sg.runeCount) := by
  constructor
  · intro outputs gs h gl hgl
    obtain ⟨out, _, sg, hb⟩ := shapeImpl_glyph_mem env text face outputs gs h gl hgl
    obtain ⟨hsg, hsi, hei, _⟩ := buildGlyph_some_spec env text out sg gl hb
    subst hsg
    exact ⟨hsi, hei⟩
  · exact shapeImpl_none_iff env text face

/-- Witness for C7: the bad stub shaper (cluster index past the mapping)
makes the call panic, and on the good run the first glyph's span is
resolved through the mapping. -/
theorem shapeImpl_cluster_mapping_contract_witness :
    shapeImpl stubEnvBad text0 face0 = none ∧
      (indicesOf text0).get? glyph0.shapingGlyph.clusterIndex = some glyph0.startIndex :=
  ⟨(shapeImpl_cluster_mapping_contract stubEnvBad text0 face0).2.mpr
      ⟨(reorderedInputs stubEnvBad text0 face0).get ⟨0, by decide⟩,
        ((reorderedInputs stubEnvBad text0 face0).get_mem _ _),
        (stubEnvBad.adjustBaselines (stubEnvBad.shape
          ((reorderedInputs stubEnvBad text0 face0).get ⟨0, by decide⟩))).get ⟨0, by decide⟩,
        ((stubEnvBad.adjustBaselines (stubEnvBad.shape
          ((reorderedInputs stubEnvBad text0 face0).get ⟨0, by decide⟩))).get_mem _ _),
        by decide⟩,
    ((shapeImpl_cluster_mapping_contract stubEnv text0 face0).1 implPair.1 implPair.2
      (Option.some_get (by decide)).symm glyph0 (implPair.2.get_mem _ _)).1⟩

/-- C9: the cluster spans of every produced glyph are global UTF-8 byte
offsets into the full original text — members of the byte-offset mapping of
the entire text (identical for every sub-run) and bounded by the text's
total byte length. -/
theorem shapeImpl_global_byte_offsets (env : ShapeEnv) (text : List Nat) (face : GoTextFace)
    (outputs : List ShapingOutput) (gs : List glyph)
    (h : shapeImpl env text face = some (outputs, gs)) :
    ∀ gl ∈ gs,
      gl.startIndex ∈ indicesOf text ∧ gl.endIndex ∈ indicesOf text ∧
        gl.startIndex ≤ byteLen text ∧ gl.endIndex ≤ byteLen text := by
  intro gl hgl
  obtain ⟨out, _, sg, hb⟩ := shapeImpl_glyph_mem env text face outputs gs h gl hgl
  obtain ⟨_, hsi, hei, _⟩ := buildGlyph_some_spec env text out sg gl hb
  have h1 := List.get?_mem hsi
  have h2 := List.get?_mem hei
  exact ⟨h1, h2, mem_indicesOf_le text _ h1, mem_indicesOf_le text _ h2⟩

/-- Witness for C9: the second concrete glyph (for the rune at rune index
1 after a three-byte rune) starts at byte offset 3, not at its rune
index. -/
theorem shapeImpl_global_byte_offsets_witness :
    (glyph1.startIndex ∈ indicesOf text0 ∧ glyph1.endIndex ∈ indicesOf text0 ∧
        glyph1.startIndex ≤ byteLen text0 ∧ glyph1.endIndex ≤ byteLen text0) ∧
      glyph1.startIndex = 3 ∧ glyph1.endIndex = 4 :=
  ⟨shapeImpl_global_byte_offsets stubEnv text0 face0 implPair.1 implPair.2
      (Option.some_get (by decide)).symm glyph1 (implPair.2.get_mem _ _),
    by decide, by decide⟩

/-- Go's `==` on positive finite sizes is plain equality of values. -/
theorem Float64.beq_eq_of_posFinite (a b : Float64) (ha : a.isPosFinite = true)
    (hb : b.isPosFinite = true) (h : Float64.beq a b = true) : a = b := by
  cases a with
  | finite qa =>
    cases b with
    | finite qb => simp [Float64.beq] at h; rw [h]
    | negZero => simp [Float64.isPosFinite] at hb
    | nan => simp [Float64.isPosFinite] at hb
  | negZero => simp [Float64.isPosFinite] at ha
  | nan => simp [Float64.isPosFinite] at ha

/-- Replacing one pair's value by a different value changes the canonical
(sorted) form: sorting permutes, and the two lists differ as multisets. -/
theorem canonPairs_value_change_ne {α : Type} [DecidableEq α]
    (pre post : List (Nat × α)) (t : Nat) (v v2 : α) (hne : v ≠ v2) :
    canonPairs (pre ++ (t, v) :: post) ≠ canonPairs (pre ++ (t, v2) :: post) := by
  intro heq
  have h1 : List.Perm (pre ++ (t, v) :: post) (canonPairs (pre ++ (t, v) :: post)) :=
    (List.perm_insertionSort _ _).symm
  have h2 : List.Perm (canonPairs (pre ++ (t, v2) :: post)) (pre ++ (t, v2) :: post) :=
    List.perm_insertionSort _ _
  rw [← heq] at h2
  have hperm := h1.trans h2
  have hpair2 : ((t, v2) : Nat × α) ≠ (t, v) := by
    intro hcon
    exact hne (congrArg Prod.snd hcon).symm
  have hflt := (hperm.filter (fun x => decide (x = (t, v)))).length_eq
  simp [List.filter_append, List.filter_cons, hpair2] at hflt

/-- Characterization of key equality between two derived cache keys. -/
theorem outputCacheKeyBeq_true_iff (f2 f : GoTextFace) (t2 t : List Nat) :
    goTextOutputCacheKeyBeq (f2.outputCacheKey t2) (f.outputCacheKey t) = true ↔
      (t2 = t ∧ f2.direction = f.direction ∧ Float64.beq f2.size f.size = true ∧
        f2.language = f.language ∧ f2.script = f.script ∧
        canonPairs f2.variations = canonPairs f.variations ∧
        canonPairs f2.features = canonPairs f.features) := by
  unfold goTextOutputCacheKeyBeq GoTextFace.outputCacheKey
  simp [Bool.and_eq_true, decide_eq_true_eq, and_assoc]

/-- C3: for a fixed text, changing any single style field entering the
shaping cache key — size (within the spec's positive range), direction,
language, script, one variation axis value, or one feature toggle value —
yields a cache key that compares unequal to the original under the key
equality the cache uses, hence a cache miss rather than reuse. -/
theorem goTextOutputCacheKey_sensitivity (text : List Nat) (f f2 : GoTextFace)
    (h : singleStyleFieldChange f f2) :
    goTextOutputCacheKeyBeq (f2.outputCacheKey text) (f.outputCacheKey text) = false := by
  rw [Bool.eq_false_iff]
  intro hc
  rw [outputCacheKeyBeq_true_iff] at hc
  obtain ⟨-, hdir, hsize, hlang, hscript, hvars, hfeat⟩ := hc
  rcases h with hch | hch | hch | hch | hch | hch
  · exact hch.1 (Float64.beq_eq_of_posFinite f2.size f.size hch.2.2.1 hch.2.1 hsize)
  · exact hch.1 hdir
  · exact hch.1 hlang
  · exact hch.1 hscript
  · obtain ⟨pre, t, v, v2, post, hne, hf, hf2, -⟩ := hch
    rw [hf, hf2] at hvars
    exact canonPairs_value_change_ne pre post t v2 v (fun he => hne he.symm) hvars
  · obtain ⟨pre, t, v, v2, post, hne, hf, hf2, -⟩ := hch
    rw [hf, hf2] at hfeat
    exact canonPairs_value_change_ne pre post t v2 v (fun he => hne he.symm) hfeat

/-- Witness for C3: flipping only the direction of the concrete style
misses against the original key. -/
theorem goTextOutputCacheKey_sensitivity_witness :
    goTextOutputCacheKeyBeq (faceRTL.outputCacheKey text0) (face0.outputCacheKey text0)
      = false :=
  goTextOutputCacheKey_sensitivity text0 face0 faceRTL (Or.inr (Or.inl (by decide)))

/-- C4 counterexample: the key stores the size as the raw binary `float64`
of the source's `size float64` field, not as a fixed-point or canonical
decimal string.  With a NaN size — a well-formed `float64` the code
accepts — the derived key does not even compare equal to itself, and two
consecutive `shape` calls with bitwise-identical arguments both perform
shaping work (computed flag `true` twice): representation noise of the raw
float encoding causes a cache miss. -/
theorem goTextOutputCacheKey_raw_float_counterexample :
    goTextOutputCacheKeyBeq (faceNaN.outputCacheKey text0) (faceNaN.outputCacheKey text0)
        = false ∧
      (GoTextFaceSource.shape stubEnv text0 faceNaN src0 1).map (fun t => t.2.2)
        = some true ∧
      (GoTextFaceSource.shape stubEnv text0 faceNaN nanFirst.2.1 1).map (fun t => t.2.2)
        = some true := by
  refine ⟨by decide, by decide, by decide⟩

/-- C4 amended: the key stores the size as the raw `float64` value compared
by Go float equality.  For the spec's admissible sizes this is unambiguous —
a style whose size is not NaN always matches its own key, and the two
representations of zero (`0.0` and `-0.0`) produce keys that compare equal —
but no fixed-point or decimal-string canonicalization is performed, and a
NaN size never matches its own cache entry. -/
theorem goTextOutputCacheKey_size_raw_float (f : GoTextFace) (text : List Nat)
    (h : f.size ≠ Float64.nan) :
    goTextOutputCacheKeyBeq (f.outputCacheKey text) (f.outputCacheKey text) = true ∧
      goTextOutputCacheKeyBeq
        (GoTextFace.outputCacheKey { f with size := Float64.negZero } text)
        (GoTextFace.outputCacheKey { f with size := Float64.finite 0 } text) = true := by
  constructor
  · rw [outputCacheKeyBeq_true_iff]
    refine ⟨rfl, rfl, ?_, rfl, rfl, rfl, rfl⟩
    cases hf : f.size with
    | finite q => simp [Float64.beq]
    | negZero => simp [Float64.beq]
    | nan => exact absurd hf h
  · rw [outputCacheKeyBeq_true_iff]
    exact ⟨rfl, rfl, by simp [Float64.beq], rfl, rfl, rfl, rfl⟩

/-- Witness for the amended C4 at the concrete style. -/
theorem goTextOutputCacheKey_size_raw_float_witness :
    goTextOutputCacheKeyBeq (face0.outputCacheKey text0) (face0.outputCacheKey text0)
        = true ∧
      goTextOutputCacheKeyBeq
        (GoTextFace.outputCacheKey { face0 with size := Float64.negZero } text0)
        (GoTextFace.outputCacheKey { face0 with size := Float64.finite 0 } text0) = true :=
  goTextOutputCacheKey_size_raw_float face0 text0 (by decide)

/-- C6 counterexample: on a bitwise copy living at address 2 of the source
created at address 1, `Metadata` returns the metadata and
`getOrCreateGlyphImage` returns an image — neither panics, so not every
public operation rejects a non-owning copy. -/
theorem copy_check_not_everywhere_counterexample :
    src0.addr ≠ 2 ∧
      GoTextFaceSource.Metadata src0 2 = some src0.metadata ∧
      (GoTextFaceSource.getOrCreateGlyphImage src0 2 face0 imgKey0 createStub).isSome
        = true := by
  refine ⟨by decide, rfl, by decide⟩

/-- C6 amended: only `shape` guards against a bitwise copy — on a receiver
whose stored self-address differs from its own address it panics before
touching the cache; `Metadata` and `getOrCreateGlyphImage` perform no copy
check: the former returns the stored metadata and the latter's behaviour
does not depend on the receiver's address at all. -/
theorem copyCheck_only_in_shape (env : ShapeEnv) (text : List Nat) (face : GoTextFace)
    (g : GoTextFaceSource) (here here2 : Nat) (key : goTextGlyphImageCacheKey)
    (create : Unit → Option (Nat × Bool)) (h : g.addr ≠ here) :
    GoTextFaceSource.shape env text face g here = none ∧
      GoTextFaceSource.Metadata g here = some g.metadata ∧
      GoTextFaceSource.getOrCreateGlyphImage g here face key create
        = GoTextFaceSource.getOrCreateGlyphImage g here2 face key create := by
  refine ⟨?_, rfl, rfl⟩
  unfold GoTextFaceSource.shape
  have hcc : g.copyCheckB here = false := by
    simp [GoTextFaceSource.copyCheckB, h]
  rw [hcc]
  simp

/-- Witness for the amended C6 at the concrete copied source. -/
theorem copyCheck_only_in_shape_witness :
    GoTextFaceSource.shape stubEnv text0 face0 src0 2 = none ∧
      GoTextFaceSource.Metadata src0 2 = some src0.metadata ∧
      GoTextFaceSource.getOrCreateGlyphImage src0 2 face0 imgKey0 createStub
        = GoTextFaceSource.getOrCreateGlyphImage src0 3 face0 imgKey0 createStub :=
  copyCheck_only_in_shape stubEnv text0 face0 src0 2 3 imgKey0 createStub (by decide)

/-- A map read past entries none of which match reads the appended tail. -/
theorem assocFind_append_none {K V : Type} (beq : K → K → Bool) (k : K)
    (m l : List (K × V)) (h : assocFind beq k m = none) :
    assocFind beq k (m ++ l) = assocFind beq k l := by
  induction m with
  | nil => rfl
  | cons e rest ih =>
    by_cases hb : beq k e.1 = true
    · simp [assocFind, hb] at h
    · have h2 : assocFind beq k rest = none := by simpa [assocFind, hb] using h
      simp [assocFind, hb, ih h2]

/-- A map write past entries none of which match writes into the appended
tail. -/
theorem assocReplace_append_none {K V : Type} (beq : K → K → Bool) (k : K) (v : V)
    (m l : List (K × V)) (h : assocFind beq k m = none) :
    assocReplace beq k v (m ++ l) = m ++ assocReplace beq k v l := by
  induction m with
  | nil => rfl
  | cons e rest ih =>
    by_cases hb : beq k e.1 = true
    · simp [assocFind, hb] at h
    · have h2 : assocFind beq k rest = none := by simpa [assocFind, hb] using h
      simp [assocReplace, hb, ih h2]

/-- A map write never changes the number of entries. -/
theorem assocReplace_length {K V : Type} (beq : K → K → Bool) (k : K) (v : V) :
    ∀ (l : List (K × V)), (assocReplace beq k v l).length = l.length := by
  intro l
  induction l with
  | nil => rfl
  | cons e rest ih =>
    by_cases hb : beq k e.1 = true
    · simp [assocReplace, hb]
    · simp [assocReplace, hb, ih]

/-- `getOrCreate` never changes a cache's capacity. -/
theorem getOrCreate_capacity {K V : Type} (beq : K → K → Bool) (k : K)
    (c : Cache K V) (compute : Unit → Option (V × Bool)) (v : V) (c2 : Cache K V)
    (flag : Bool) (h : c.getOrCreate beq k compute = some (v, c2, flag)) :
    c2.capacity = c.capacity := by
  unfold Cache.getOrCreate at h
  cases hext : extractEntry beq k c.entries with
  | some p =>
    rw [hext] at h
    simp at h
    rw [← h.2.1]
  | none =>
    rw [hext] at h
    cases hcomp : compute () with
    | none => rw [hcomp] at h; simp at h
    | some w =>
      rw [hcomp] at h
      obtain ⟨wv, wb⟩ := w
      cases wb with
      | true => simp at h; rw [← h.2.1]
      | false => simp at h; rw [← h.2.1]

/-- C8: a newly constructed face source holds exactly one shaping cache
(capacity 512) and no image caches; `shape` touches only that single
shaping cache whatever the face's size; `getOrCreateGlyphImage` creates
exactly one image cache, of capacity `128 * glyphVariationCount face`, the
first time a size value is seen, and at an already-seen size it creates
nothing and delegates to the stored cache instance, writing it back in
place. -/
theorem source_cache_layout :
    (∀ addr meta, (newGoTextFaceSource addr meta).outputCache
        = Cache.empty goTextOutputCacheKey goTextOutputCacheValue 512 ∧
      (newGoTextFaceSource addr meta).glyphImageCache = []) ∧
    (∀ env text face g here r g2 b,
      GoTextFaceSource.shape env text face g here = some (r, g2, b) →
      g2.glyphImageCache = g.glyphImageCache ∧ g2.metadata = g.metadata ∧
        g2.addr = g.addr) ∧
    (∀ g here face key create img g2,
      Float64.beq face.size face.size = true →
      assocFind Float64.beq face.size g.glyphImageCache = none →
      GoTextFaceSource.getOrCreateGlyphImage g here face key create = some (img, g2) →
      ∃ c2, g2.glyphImageCache = g.glyphImageCache ++ [(face.size, c2)] ∧
        c2.capacity = 128 * glyphVariationCount face) ∧
    (∀ g here face key create c,
      assocFind Float64.beq face.size g.glyphImageCache = some c →
      GoTextFaceSource.getOrCreateGlyphImage g here face key create
          = (match c.getOrCreate goTextGlyphImageCacheKeyBeq key create with
            | none => none
            | some (img, c2, _) =>
                some (img,
                  { g with
                    glyphImageCache :=
                      assocReplace Float64.beq face.size c2 g.glyphImageCache })) ∧
        ∀ img g2, GoTextFaceSource.getOrCreateGlyphImage g here face key create
            = some (img, g2) →
          g2.glyphImageCache.length = g.glyphImageCache.length) := by
  refine ⟨fun addr meta => ⟨rfl, rfl⟩, ?_, ?_, ?_⟩
  · intro env text face g here r g2 b h
    obtain ⟨-, e, c2, -, -, hg2⟩ := shape_some_inv env text face g here r g2 b h
    subst hg2
    exact ⟨rfl, rfl, rfl⟩
  · intro g here face key create img g2 hself habsent h
    have hens : ensureSizeCache g face = g.glyphImageCache ++
        [(face.size, Cache.empty goTextGlyphImageCacheKey Nat
          (128 * glyphVariationCount face))] := by
      unfold ensureSizeCache
      rw [habsent]
    unfold GoTextFaceSource.getOrCreateGlyphImage at h
    rw [hens, assocFind_append_none Float64.beq face.size _ _ habsent] at h
    simp only [assocFind, hself, if_true] at h
    cases hgo : (Cache.empty goTextGlyphImageCacheKey Nat
        (128 * glyphVariationCount face)).getOrCreate goTextGlyphImageCacheKeyBeq key
        create with
    | none => rw [hgo] at h; simp at h
    | some t =>
      obtain ⟨im2, c2, fl⟩ := t
      rw [hgo] at h
      simp only [Option.some.injEq, Prod.mk.injEq] at h
      obtain ⟨-, hg2⟩ := h
      refine ⟨c2, ?_, ?_⟩
      · rw [← hg2]
        show assocReplace Float64.beq face.size c2 (g.glyphImageCache ++ _)
          = g.glyphImageCache ++ [(face.size, c2)]
        rw [assocReplace_append_none Float64.beq face.size c2 _ _ habsent]
        simp [assocReplace, hself]
      · have := getOrCreate_capacity goTextGlyphImageCacheKeyBeq key _ create im2 c2 fl hgo
        rw [this]
        rfl
  · intro g here face key create c hfound
    have hens : ensureSizeCache g face = g.glyphImageCache := by
      unfold ensureSizeCache
      rw [hfound]
    constructor
    · unfold GoTextFaceSource.getOrCreateGlyphImage
      rw [hens, hfound]
    · intro img g2 h
      unfold GoTextFaceSource.getOrCreateGlyphImage at h
      rw [hens, hfound] at h
      have h2 : (match c.getOrCreate goTextGlyphImageCacheKeyBeq key create with
          | none => none
          | some (img2, c2, _) =>
              some (img2,
                { g with
                  glyphImageCache :=
                    assocReplace Float64.beq face.size c2 g.glyphImageCache }))
          = some (img, g2) := h
      cases hgo : c.getOrCreate goTextGlyphImageCacheKeyBeq key create with
      | none => rw [hgo] at h2; simp at h2
      | some t =>
        obtain ⟨im2, c2, fl⟩ := t
        rw [hgo] at h2
        simp only [Option.some.injEq, Prod.mk.injEq] at h2
        obtain ⟨-, hg2⟩ := h2
        rw [← hg2]
        show (assocReplace Float64.beq face.size c2 g.glyphImageCache).length
          = g.glyphImageCache.length
        exact assocReplace_length Float64.beq face.size c2 g.glyphImageCache

/-- Witness for C8: the first request at the fresh size lazily creates
exactly one image cache of capacity `128 * glyphVariationCount face0`. -/
theorem source_cache_layout_witness :
    ∃ c2, imgRes.2.glyphImageCache = src0.glyphImageCache ++ [(face0.size, c2)] ∧
      c2.capacity = 128 * glyphVariationCount face0 :=
  source_cache_layout.2.2.1 src0 1 face0 imgKey0 createStub imgRes.1 imgRes.2
    (by decide) (by decide) (Option.some_get (by decide)).symm

/-- The loader loop fails with the first font-parsing error and returns no
slice at all. -/
theorem buildSources_error (env : LoadEnv) :
    ∀ (pre : List Nat) (alloc : Nat),
      (∀ p ∈ pre, (env.newFont p).isOk = true) →
      ∀ (l : Nat) (post : List Nat) (e : GoError), env.newFont l = Except.error e →
        buildSources env alloc (pre ++ l :: post) = (none, some e) := by
  intro pre
  induction pre with
  | nil =>
    intro alloc hok l post e he
    simp [buildSources, he]
  | cons p rest ih =>
    intro alloc hok l post e he
    have hp := hok p (List.mem_cons_self p rest)
    cases hp2 : env.newFont p with
    | error e2 => rw [hp2] at hp; simp [Except.isOk, Except.toBool] at hp
    | ok f =>
      have hrest := ih (alloc + 1) (fun q hq => hok q (List.mem_cons_of_mem p hq)) l post e he
      simp [buildSources, hp2, hrest]

/-- The loader loop, when every font parses, yields one fresh source per
loader, with empty caches and consecutive fresh addresses. -/
theorem buildSources_ok (env : LoadEnv) :
    ∀ (ls : List Nat) (alloc : Nat),
      (∀ l ∈ ls, (env.newFont l).isOk = true) →
      ∃ ss, buildSources env alloc ls = (some ss, none) ∧ ss.length = ls.length ∧
        ∀ i (hi : i < ss.length),
          (ss.get ⟨i, hi⟩).outputCache
              = Cache.empty goTextOutputCacheKey goTextOutputCacheValue 512 ∧
            (ss.get ⟨i, hi⟩).glyphImageCache = [] ∧ (ss.get ⟨i, hi⟩).addr = alloc + i := by
  intro ls
  induction ls with
  | nil =>
    intro alloc hok
    exact ⟨[], rfl, rfl, fun i hi => absurd hi (by simp)⟩
  | cons l rest ih =>
    intro alloc hok
    have hl := hok l (List.mem_cons_self l rest)
    cases hl2 : env.newFont l with
    | error e2 => rw [hl2] at hl; simp [Except.isOk, Except.toBool] at hl
    | ok f =>
      obtain ⟨ss, hss, hlen, hprops⟩ :=
        ih (alloc + 1) (fun q hq => hok q (List.mem_cons_of_mem l hq))
      refine ⟨newGoTextFaceSource alloc (env.metadataFromFace f) :: ss, ?_, ?_, ?_⟩
      · simp [buildSources, hl2, hss]
      · simp [hlen]
      · intro i hi
        cases i with
        | zero => exact ⟨rfl, rfl, rfl⟩
        | succ j =>
          have hj : j < ss.length := by
            simp at hi
            omega
          have hprop := hprops j hj
          have hget : (newGoTextFaceSource alloc (env.metadataFromFace f) :: ss).get
              ⟨j + 1, hi⟩ = ss.get ⟨j, hj⟩ := rfl
          rw [hget]
          refine ⟨hprop.1, hprop.2.1, ?_⟩
          rw [hprop.2.2]
          omega

/-- C10: `NewGoTextFaceSourcesFromCollection` is all-or-nothing — if
parsing any font of the collection fails, the first such error is returned
together with a nil slice (never a partial slice of the sources parsed
before the failure); on success it returns exactly one `GoTextFaceSource`
per loader, each with its own fresh, independent shaping cache (capacity
512, empty), no image caches and a distinct owning address. -/
theorem newGoTextFaceSourcesFromCollection_all_or_nothing (env : LoadEnv)
    (source res : Nat) (ls : List Nat) (alloc : Nat)
    (hres : env.toFontResource source = Except.ok res)
    (hls : env.newLoaders res = Except.ok ls) :
    (∀ pre l post e, ls = pre ++ l :: post →
      (∀ p ∈ pre, (env.newFont p).isOk = true) →
      env.newFont l = Except.error e →
      NewGoTextFaceSourcesFromCollection env source alloc = (none, some e)) ∧
    ((∀ l ∈ ls, (env.newFont l).isOk = true) →
      ∃ ss, NewGoTextFaceSourcesFromCollection env source alloc = (some ss, none) ∧
        ss.length = ls.length ∧
        ∀ i (hi : i < ss.length),
          (ss.get ⟨i, hi⟩).outputCache
              = Cache.empty goTextOutputCacheKey goTextOutputCacheValue 512 ∧
            (ss.get ⟨i, hi⟩).glyphImageCache = [] ∧
            (ss.get ⟨i, hi⟩).addr = alloc + i) := by
  have htop : NewGoTextFaceSourcesFromCollection env source alloc
      = buildSources env alloc ls := by
    unfold NewGoTextFaceSourcesFromCollection
    rw [hres]
    show (match env.newLoaders res with
      | Except.error e => (none, some e)
      | Except.ok ls => buildSources env alloc ls) = buildSources env alloc ls
    rw [hls]
  constructor
  · intro pre l post e hsplit hok he
    rw [htop, hsplit]
    exact buildSources_error env pre alloc hok l post e he
  · intro hok
    obtain ⟨ss, hss, hlen, hprops⟩ := buildSources_ok env ls alloc hok
    exact ⟨ss, htop ▸ hss, hlen, hprops⟩

/-- Witness for C10: the failing collection returns a nil slice with the
error, and the healthy collection returns one source per loader. -/
theorem newGoTextFaceSourcesFromCollection_all_or_nothing_witness :
    NewGoTextFaceSourcesFromCollection envFail 5 0 = (none, some "bad") ∧
      (∃ ss, NewGoTextFaceSourcesFromCollection envOk 5 0 = (some ss, none) ∧
        ss.length = ([0, 1, 2] : List Nat).length ∧
        ∀ i (hi : i < ss.length),
          (ss.get ⟨i, hi⟩).outputCache
              = Cache.empty goTextOutputCacheKey goTextOutputCacheValue 512 ∧
            (ss.get ⟨i, hi⟩).glyphImageCache = [] ∧
            (ss.get ⟨i, hi⟩).addr = 0 + i) :=
  ⟨(newGoTextFaceSourcesFromCollection_all_or_nothing envFail 5 5 [0, 1, 2] 0 rfl rfl).1
      [0] 1 [2] "bad" rfl (by decide) rfl,
    (newGoTextFaceSourcesFromCollection_all_or_nothing envOk 5 5 [0, 1, 2] 0 rfl rfl).2
      (by decide)⟩
